import Mathlib

/-!
Shallow embedding of the two Python source files of the repository:

* `host_search/falcon_host_search_web_page_solution/falcon_host_search_site.py`
  (input classification, concurrent device lookup, aggregation, detail
  enrichment, and the Flask submission entry point), and
* `sensor_download/sensor_download.py` (the `get_version_map` builder of the
  current/previous/oldest sensor lineage per platform/OS bucket).

Pure Python functions become Lean functions; the remote CrowdStrike service is
an explicit oracle parameter; Python exceptions become `Except` errors;
Python `None` becomes `Option.none`.  Strings are modelled as Lean `String`,
input lines as `List Char`.
-/

/-! ## Python string primitives used by `file_parse` -/

/-- Python `str.split("\n")`: cuts a character list at every newline.
`"".split("\n")` is `[""]`, and a trailing newline yields a trailing empty
piece, exactly as in Python. -/
def splitNl : List Char → List (List Char)
  | [] => [[]]
  | c :: rest =>
      if c = '\n' then [] :: splitNl rest
      else
        match splitNl rest with
        | [] => [[c]]
        | l :: ls => (c :: l) :: ls

/-- The default whitespace characters stripped by Python `str.strip()`
(ASCII fragment: space, tab, newline, carriage return, vertical tab,
form feed). -/
def isPyWs (c : Char) : Bool :=
  c = ' ' || c = '\t' || c = '\n' || c = '\r' || c = '\x0b' || c = '\x0c'

/-- Python `str.strip()` on a character list: drop whitespace from both
ends. -/
def stripChars (l : List Char) : List Char :=
  ((l.dropWhile isPyWs).reverse.dropWhile isPyWs).reverse

/-- A word character for the (ASCII fragment of the) Python regex class
`\w`: letters, digits, underscore. -/
def isWordChar (c : Char) : Bool :=
  c.isAlphanum || c = '_'

/-- Python `re.sub(r"\..*", "", host_or_id)` on a newline-free token:
deletes everything from the first `.` onward. -/
def stripDomain (l : List Char) : List Char :=
  l.takeWhile (fun c => c ≠ '.')

/-- Python `re.match(r"^i-\b.*$", host_or_id)` on a newline-free ASCII
token: the token starts with `i`, `-`, and then a word boundary, i.e. the
third character exists and is a word character (the character before the
boundary is `-`, which is not a word character). -/
def matches_iname : List Char → Bool
  | c₁ :: c₂ :: c₃ :: _ => c₁ = 'i' && c₂ = '-' && isWordChar c₃
  | _ => false

/-! ## `file_parse` -/

/-- Result of `file_parse`: either the too-many-names refusal (the Python
code returns the pair `(False, False)`), or the instance-id bucket and the
hostname bucket. -/
inductive ParseResult
  | tooMany : ParseResult
  | lists : List (List Char) → List (List Char) → ParseResult
  deriving DecidableEq

/-- The cleaned line list of `file_parse`: split the submitted text on
newlines, strip each piece, and remove every empty string (the Python
`while "" in host_list: host_list.remove("")` loop). -/
def parse_lines (s : List Char) : List (List Char) :=
  ((splitNl s).map stripChars).filter (fun l => l ≠ [])

/-- `file_parse` from `falcon_host_search_site.py`: refuses with
`(False, False)` when more than 5000 non-empty lines were submitted,
otherwise strips the domain suffix from each line and routes it to the
instance-id bucket when `^i-\b.*$` matches, else to the hostname bucket
(each bucket keeps input order, as the Python `for` loop appends). -/
def file_parse (s : List Char) : ParseResult :=
  let host_list := parse_lines s
  if host_list.length > 5000 then ParseResult.tooMany
  else
    let stripped := host_list.map stripDomain
    ParseResult.lists (stripped.filter (fun l => matches_iname l))
      (stripped.filter (fun l => ¬ matches_iname l))

example : file_parse "host1.example.com\ni-0abc.region\n\n  \n".toList =
    ParseResult.lists [['i', '-', '0', 'a', 'b', 'c']]
      [['h', 'o', 's', 't', '1']] := by decide

example : file_parse "i-\n.corp.com".toList =
    ParseResult.lists [] [['i', '-'], []] := by decide

/-! ## `cs_query_devices`

The remote service (`falcon.query_devices_by_filter_scroll`) is modelled as
an oracle from the searched token to a response carrying the HTTP status
code and the list of agent IDs in `body.resources`.  The two worker
closures `search_inames` / `search_hnames` each read the response for
their own token and append either the matched id list to `aid_list`, a
not-found row, or an error row to `host_info_list`. -/

/-- Response of one `query_devices_by_filter_scroll` call: the status code
and `body.resources` (the matched agent IDs). -/
structure SearchResponse where
  status_code : Nat
  resources : List String
  deriving DecidableEq

/-- Contribution of one `search_inames` worker for one instance-id token:
the sublists it appends to `aid_list` and the rows it appends to
`host_info_list`.  `f"{iname},{is_found}"` with `is_found = False` renders
as `<iname>,False`. -/
def iname_outcome (qi : List Char → SearchResponse) (iname : List Char) :
    List (List String) × List String :=
  let r := qi iname
  if r.status_code = 200 then
    if r.resources.isEmpty then
      ([], [String.mk iname ++ ",False"])
    else
      ([r.resources], [])
  else
    ([], [String.mk iname ++
      ", Search experienced an error. Please try this name again in a smaller search list."])

/-- Contribution of one `search_hnames` worker for one hostname token
(identical shape; the error text differs from the instance-id one). -/
def hname_outcome (qh : List Char → SearchResponse) (hname : List Char) :
    List (List String) × List String :=
  let r := qh hname
  if r.status_code = 200 then
    if r.resources.isEmpty then
      ([], [String.mk hname ++ ",False"])
    else
      ([r.resources], [])
  else
    ([], [String.mk hname ++
      ", Search experienced a transient error. Please try this name again in a smaller search list."])

/-- The per-task contributions of `cs_query_devices`, in submission order:
all instance-id tasks (in `iname_list` order) followed by all hostname
tasks (in `hname_list` order).  The thread pool may complete them in any
order; this list fixes one admissible completion order and is only used
for order-insensitive properties and together with the schedule cut of
`cs_query_devices_sched`. -/
def query_outcomes (qi qh : List Char → SearchResponse)
    (inames hnames : List (List Char)) : List (List (List String) × List String) :=
  inames.map (iname_outcome qi) ++ hnames.map (hname_outcome qh)

/-- `cs_query_devices` under the schedule in which every lookup task
finishes before the main thread flattens `aid_list`: the flattened agent-id
list and the collected not-found/error rows. -/
def cs_query_devices (qi qh : List Char → SearchResponse)
    (inames hnames : List (List Char)) : List String × List String :=
  let outcomes := query_outcomes qi qh inames hnames
  (((outcomes.map Prod.fst).flatten).flatten, (outcomes.map Prod.snd).flatten)

/-- A Python value that can sit in the returned `aid_list`: a flat agent-id
string, or a raw sublist appended after the flattening rebound `aid_list`. -/
inductive PyVal
  | str : String → PyVal
  | lst : List String → PyVal
  deriving DecidableEq

/-- `cs_query_devices` as actually written: the flatten comprehension and
the `return` sit inside the `with ThreadPoolExecutor(...)` block, so they
run before the implicit `executor.shutdown(wait=True)` join.  `cut` is the
number of `aid_list` appends that happened before the main thread rebound
`aid_list` to its flattened copy; appends that happen later mutate the new
(already returned) list and land as raw sublists.  `host_info_list` is
returned by reference, so its rows are complete once the pool drains.
`cut ≥` the number of appends reproduces the fully-joined behaviour. -/
def cs_query_devices_sched (qi qh : List Char → SearchResponse)
    (inames hnames : List (List Char)) (cut : Nat) : List PyVal × List String :=
  let outcomes := query_outcomes qi qh inames hnames
  let aidLists := (outcomes.map Prod.fst).flatten
  (((aidLists.take cut).flatten).map PyVal.str ++ (aidLists.drop cut).map PyVal.lst,
    (outcomes.map Prod.snd).flatten)

/-! ## `cs_detail_search` -/

/-- Python exceptions that the modelled paths can raise. -/
inductive PyErr
  | attributeError
  | typeError
  | keyError
  deriving DecidableEq

/-- One record of `get_device_details(...)["body"]["resources"]`.  The keys
read with a bare subscript always exist (a missing one would raise
`KeyError`, which the code does not guard); `instance_id` and `tags` are
read inside `try/except KeyError` and are therefore `Option`s. -/
structure DeviceDetail where
  hostname : String
  device_id : String
  agent_version : String
  last_seen : String
  first_seen : String
  instance_id : Option String
  tags : Option (List String)
  cid : String
  deriving DecidableEq

/-- The static customer-id dictionary `cid_dict` of the script. -/
def cid_dict : List (String × String) :=
  [("1234567890qwertyuiopasdfghjkl", "Company Name"),
   ("0987654321poiuytrewqlkjhgfdsa", "Business Segment"),
   ("67890-54321trewyuiopgfdshjkla", "Sister Company"),
   ("09876123456mnbvzxcvbasdftygwk", "Acronyms R Us")]

/-- Python `dict.get(key, default)` on an association list. -/
def dictGet (l : List (String × String)) (k dflt : String) : String :=
  match l.find? (fun p => p.1 = k) with
  | some p => p.2
  | none => dflt

/-- The enrichment row built for one detail record.  The f-string in the
source is broken with a backslash line continuation, so the sixteen leading
spaces of its second source line are part of the string, between
`last_seen` and the comma before `first_seen`. -/
def detailRow (d : DeviceDetail) : String :=
  let is_found := "True"
  let instance_id := d.instance_id.getD "N/A"
  let tags :=
    match d.tags with
    | some ts => String.intercalate ";" ts
    | none => "N/A"
  let cid_name := dictGet cid_dict d.cid "Name not found"
  let cid := cid_name ++ " : " ++ d.cid
  d.hostname ++ "," ++ is_found ++ "," ++ d.agent_version ++ "," ++ d.last_seen ++
    "                ," ++ d.first_seen ++ "," ++ tags ++ "," ++ cid ++ "," ++
    instance_id ++ "," ++ d.device_id

/-- The advisory row of the over-5000-matches branch. -/
def tooManyMatchesRow (n : Nat) : String :=
  toString n ++ " hosts found. Please reduce the number of partial " ++
    "names to stay under 5000 results. Any names above that reported " ++
    "IsFound as False were confirmed not to be found."

/-- `cs_detail_search` from `falcon_host_search_site.py`.  The remote
`get_device_details` call is the oracle `gd` from the submitted id list to
`body.resources`.  The empty-aggregate branch calls the non-existent list
method `apppend` (a misspelling of `append`) and therefore raises
`AttributeError`; the middle branch performs the single batched fetch and
appends one row per returned detail; the final branch appends the single
advisory row carrying the match count. -/
def cs_detail_search (gd : List String → List DeviceDetail)
    (aid_list host_info_list : List String) : Except PyErr (List String) :=
  if aid_list.length = 0 then
    Except.error PyErr.attributeError
  else if aid_list.length ≤ 5000 then
    Except.ok (host_info_list ++ (gd aid_list).map detailRow)
  else
    Except.ok (host_info_list ++ [tooManyMatchesRow aid_list.length])

/-! ## `upload_file` -/

/-- Truth value of the Python guard `if iname_list and hname_list == False`
at the `/submit` entry point.  When `file_parse` refused, `iname_list` is
`False`, which is falsy, so the conjunction short-circuits to `False`.
Otherwise `iname_list` is a list (truthy iff non-empty) and
`hname_list == False` compares a list with a bool, which is `False` in
Python.  The guard is therefore false on every input, and the branch that
builds the advisory "Too many names" row is unreachable. -/
def upload_guard : ParseResult → Bool
  | ParseResult.tooMany => false
  | ParseResult.lists il _ => (!il.isEmpty) && false

/-- `upload_file`, the `/submit` handler.  The success value is the Python
return value of the function: `none`, because no branch of the function
body contains a `return` statement (the computed `host_info_list` is
discarded).  When `file_parse` refused, the guard is false, so the handler
falls into the `else` branch and calls
`cs_query_devices(falcon, False, False)`; there `executor.map` iterates
over the bool `False` and raises `TypeError` before any device query. -/
def upload_file (qi qh : List Char → SearchResponse)
    (gd : List String → List DeviceDetail) (submitted : List Char) :
    Except PyErr (Option (List String)) :=
  match file_parse submitted with
  | ParseResult.tooMany =>
      if upload_guard ParseResult.tooMany then
        Except.ok none
      else
        Except.error PyErr.typeError
  | ParseResult.lists il hl =>
      if upload_guard (ParseResult.lists il hl) then
        Except.ok none
      else
        let qres := cs_query_devices qi qh il hl
        match cs_detail_search gd qres.1 qres.2 with
        | Except.error e => Except.error e
        | Except.ok _ => Except.ok none

/-! ## `sensor_download.py`: `get_version_map`

Python dicts keep insertion order, so the nested
`version_map : plat -> os_type -> detail` structure is modelled with
association lists.  A detail dict key that is absent (or holds the
transient empty dict, which is falsy exactly like an absent one under
`.get(key, {})`) is `Option.none`. -/

/-- One record of `GetCombinedSensorInstallersByQuery`'s `body.resources`,
restricted to the keys `get_version_map` reads with `.get(key, None)`. -/
structure SensorInstaller where
  version : Option String
  platform : Option String
  os : Option String
  os_version : Option String
  name : Option String
  description : Option String
  sha256 : Option String
  deriving DecidableEq

/-- The four fields copied into a `current`/`previous`/`oldest` slot. -/
structure VersionEntry where
  name : Option String
  version : Option String
  description : Option String
  sha256 : Option String
  deriving DecidableEq

/-- One `version_map[plat][os_type]` dict. -/
structure OsDetail where
  current : Option VersionEntry
  previous : Option VersionEntry
  oldest : Option VersionEntry
  deriving DecidableEq

/-- The inner association list `version_map[plat]`. -/
abbrev OsBuckets := List (String × OsDetail)

/-- The whole `version_map`. -/
abbrev VersionMapAL := List (String × OsBuckets)

/-- `version_map` as initialised by `get_version_map`. -/
def initVersionMap : VersionMapAL :=
  [("windows", []), ("mac", []), ("linux", [])]

/-- The loop flags `tracked` / `current` / `prev` / `eldest`, reset to
`False` for every installer record. -/
structure Flags where
  tracked : Bool
  current : Bool
  prev : Bool
  eldest : Bool
  deriving DecidableEq

/-- Python truthiness of an optional string (`None` and `""` are falsy). -/
def pyTruthy : Option String → Bool
  | none => false
  | some s => !(s == "")

/-- Python f-string rendering of an optional value (`None` prints as
`"None"`). -/
def pyFmt : Option String → String
  | none => "None"
  | some s => s

/-- The `VersionEntry` built from one installer record. -/
def mkEntry (v : SensorInstaller) : VersionEntry :=
  { name := v.name, version := v.version, description := v.description,
    sha256 := v.sha256 }

/-- First cascade of the matching-bucket body: fill an unpopulated (or
transiently empty, hence falsy) `current` slot and mark `tracked`, else
raise the `current` flag. -/
def currentStage (e : VersionEntry) (fl : Flags) (d : OsDetail) :
    Flags × OsDetail :=
  if d.current.isNone then
    ({ fl with tracked := true }, { d with current := some e })
  else
    ({ fl with current := true }, d)

/-- Second cascade: with the `current` flag raised, fill an unpopulated
`previous` slot and mark `tracked`, or raise the `prev` flag when
`previous` is already populated. -/
def previousStage (e : VersionEntry) (p : Flags × OsDetail) :
    Flags × OsDetail :=
  if p.1.current && p.2.previous.isNone then
    ({ p.1 with tracked := true }, { p.2 with previous := some e })
  else if p.1.current && p.2.previous.isSome then
    ({ p.1 with prev := true }, p.2)
  else p

/-- Third cascade: with the `current` and `prev` flags raised, fill an
unpopulated `oldest` slot and mark `tracked`, or raise the `eldest` flag
when `oldest` is already populated. -/
def oldestStage (e : VersionEntry) (p : Flags × OsDetail) :
    Flags × OsDetail :=
  if p.1.current && p.1.prev && p.2.oldest.isNone then
    ({ p.1 with tracked := true }, { p.2 with oldest := some e })
  else if p.1.current && p.1.prev && p.2.oldest.isSome then
    ({ p.1 with eldest := true }, p.2)
  else p

/-- The body of `if os_type == f"{os_name} {os_ver}".strip():` — the
update of one matching `os_detail`, threading the loop flags.  The three
`if/elif` cascades run in source order against the dict as already mutated
by the earlier cascades of the same record. -/
def detailStep (e : VersionEntry) (fl : Flags) (d : OsDetail) : Flags × OsDetail :=
  oldestStage e (previousStage e (currentStage e fl d))

/-- The `for os_type, os_detail in version_map.get(plat, {}).items():`
loop: every entry whose key equals `full` is updated in place by
`detailStep`; the flags persist across iterations. -/
def bucketLoop (full : String) (e : VersionEntry) (fl : Flags) :
    OsBuckets → Flags × OsBuckets
  | [] => (fl, [])
  | (k, d) :: rest =>
      if k = full then
        let s := detailStep e fl d
        let r := bucketLoop full e s.1 rest
        (r.1, (k, s.2) :: r.2)
      else
        let r := bucketLoop full e fl rest
        (r.1, (k, d) :: r.2)

/-- Write the (in Python, in-place mutated) inner dict of `plat` back into
`version_map`; a no-op when `plat` is not a key. -/
def writeBuckets (vm : VersionMapAL) (plat : String) (bs : OsBuckets) :
    VersionMapAL :=
  vm.map (fun p => if p.1 = plat then (p.1, bs) else p)

/-- Python dict assignment `d[k] = v` on an association list: replace the
entry if the key exists, otherwise append it. -/
def alSet (bs : OsBuckets) (k : String) (v : OsDetail) : OsBuckets :=
  if bs.any (fun p => p.1 = k) then
    bs.map (fun p => if p.1 = k then (p.1, v) else p)
  else
    bs ++ [(k, v)]

/-- `version_map.get(plat, {})`. -/
def platBuckets (vm : VersionMapAL) (plat : String) : OsBuckets :=
  ((vm.find? (fun p => p.1 = plat)).map Prod.snd).getD []

/-- `f"{os_name} {os_ver}".strip()` (an absent `os_version` prints as
`"None"`). -/
def fullOsName (v : SensorInstaller) : String :=
  String.mk (stripChars (pyFmt v.os ++ " " ++ pyFmt v.os_version).toList)

/-- The flag test guarding the creation branch:
`if not tracked and not current and not prev and not eldest`. -/
def isUntracked (fl : Flags) : Bool :=
  !fl.tracked && !fl.current && !fl.prev && !fl.eldest

/-- The creation branch `version_map[plat][full] = {...}`: a bare subscript
on `version_map`, so a `plat` that is not one of the three pre-created
platform keys raises `KeyError`; otherwise a fresh bucket holding only the
`current` slot is written under `full`. -/
def createBucket (vm : VersionMapAL) (plat full : String) (e : VersionEntry) :
    Except PyErr VersionMapAL :=
  match vm.find? (fun p => p.1 = plat) with
  | none => Except.error PyErr.keyError
  | some p =>
      Except.ok (writeBuckets vm plat
        (alSet p.2 full { current := some e, previous := none, oldest := none }))

/-- Processing of one installer record by `get_version_map`: run the bucket
loop over `version_map.get(plat, {})`, write the mutated buckets back, and
take the creation branch when every flag is still down.  Records with a
falsy `platform` or `os` are skipped. -/
def stepRecord (vm : VersionMapAL) (v : SensorInstaller) :
    Except PyErr VersionMapAL :=
  if pyTruthy v.platform && pyTruthy v.os then
    if isUntracked (bucketLoop (fullOsName v) (mkEntry v)
        ⟨false, false, false, false⟩ (platBuckets vm (pyFmt v.platform))).1 then
      createBucket (writeBuckets vm (pyFmt v.platform)
          (bucketLoop (fullOsName v) (mkEntry v) ⟨false, false, false, false⟩
            (platBuckets vm (pyFmt v.platform))).2)
        (pyFmt v.platform) (fullOsName v) (mkEntry v)
    else
      Except.ok (writeBuckets vm (pyFmt v.platform)
        (bucketLoop (fullOsName v) (mkEntry v) ⟨false, false, false, false⟩
          (platBuckets vm (pyFmt v.platform))).2)
  else
    Except.ok vm

/-- The record loop of `get_version_map`. -/
def get_version_map_aux : List SensorInstaller → VersionMapAL →
    Except PyErr VersionMapAL
  | [], vm => Except.ok vm
  | v :: rest, vm =>
      match stepRecord vm v with
      | Except.ok vm₁ => get_version_map_aux rest vm₁
      | Except.error e => Except.error e

/-- `get_version_map` applied to `sensor_versions["body"]["resources"]`. -/
def get_version_map (resources : List SensorInstaller) :
    Except PyErr VersionMapAL :=
  get_version_map_aux resources initVersionMap

/-! ## Auxiliary definitions for the statements and their witnesses -/

/-- A submitted text with `n` lines, each holding the single name `a`:
the concatenation of `n` copies of `"a\n"`. -/
def bigInput : Nat → List Char
  | 0 => []
  | n + 1 => 'a' :: '\n' :: bigInput n

/-- The lineage shape claimed for one `version_map[plat][os_type]` bucket:
`current` is always populated, `previous` only ever exists alongside a
populated `current`, and `oldest` only alongside a populated `previous`. -/
def lineageOK (d : OsDetail) : Prop :=
  d.current.isSome = true ∧
    (d.previous.isSome = true → d.current.isSome = true) ∧
    (d.oldest.isSome = true → d.previous.isSome = true)

/-- Sample installer record for the `get_version_map` witness, keyed by its
version string. -/
def sampleInstaller (n : String) : SensorInstaller :=
  { version := some n, platform := some "linux", os := some "Ubuntu",
    os_version := some "16/18/20/22", name := some ("falcon-" ++ n),
    description := some "Falcon Sensor for Ubuntu", sha256 := some ("sha-" ++ n) }

/-- The version-entry slot built from `sampleInstaller n`. -/
def sampleEntry (n : String) : VersionEntry :=
  { name := some ("falcon-" ++ n), version := some n,
    description := some "Falcon Sensor for Ubuntu", sha256 := some ("sha-" ++ n) }

/-- The bucket detail produced from the sample records below: the three
newest fill the lineage in release order. -/
def sampleDetail : OsDetail :=
  { current := some (sampleEntry "7.1"), previous := some (sampleEntry "7.0"),
    oldest := some (sampleEntry "6.9") }

/-- The version map produced from four same-bucket sample records (the
fourth record finds the full lineage occupied and changes nothing). -/
def sampleVersionMap : VersionMapAL :=
  [("windows", []), ("mac", []),
   ("linux", [("Ubuntu 16/18/20/22", sampleDetail)])]

/-! # Helper lemmas -/

theorem file_parse_lists_eq (s : List Char) (il hl : List (List Char))
    (hp : file_parse s = ParseResult.lists il hl) :
    il = ((parse_lines s).map stripDomain).filter (fun l => matches_iname l) ∧
      hl = ((parse_lines s).map stripDomain).filter (fun l => ¬ matches_iname l) := by
  unfold file_parse at hp
  by_cases h : (parse_lines s).length > 5000
  · simp [h] at hp
  · simp only [h, if_neg h, ite_false, ParseResult.lists.injEq] at hp
    exact ⟨hp.1.symm, hp.2.symm⟩

theorem matches_iname_iff (t : List Char) :
    matches_iname t = true ↔
      ∃ c rest, t = 'i' :: '-' :: c :: rest ∧ isWordChar c = true := by
  constructor
  · intro h
    rcases t with _ | ⟨c₁, _ | ⟨c₂, _ | ⟨c₃, rest⟩⟩⟩ <;>
      simp [matches_iname] at h
    exact ⟨c₃, rest, by rw [h.1.1, h.1.2], h.2⟩
  · rintro ⟨c, rest, rfl, hw⟩
    simp [matches_iname, hw]

theorem splitNl_a_nl (r : List Char) :
    splitNl ('a' :: '\n' :: r) = ['a'] :: splitNl r := by
  simp [splitNl]

theorem splitNl_bigInput (n : Nat) :
    splitNl (bigInput n) = List.replicate n ['a'] ++ [[]] := by
  induction n with
  | zero => rfl
  | succ n ih =>
      show splitNl ('a' :: '\n' :: bigInput n) = _
      rw [splitNl_a_nl, ih, List.replicate_succ]
      rfl

theorem parse_lines_bigInput (n : Nat) :
    parse_lines (bigInput n) = List.replicate n ['a'] := by
  unfold parse_lines
  rw [splitNl_bigInput, List.map_append, List.map_replicate,
    show stripChars ['a'] = ['a'] from by decide,
    show ([[]] : List (List Char)).map stripChars = [[]] from by decide,
    List.filter_append]
  rw [List.filter_eq_self.mpr, show (([[]] : List (List Char)).filter
    (fun l => l ≠ [])) = [] from by decide, List.append_nil]
  intro a ha
  rw [List.eq_of_mem_replicate ha]
  decide

theorem file_parse_bigInput_tooMany :
    file_parse (bigInput 5001) = ParseResult.tooMany := by
  simp only [file_parse, parse_lines_bigInput, List.length_replicate]
  norm_num

theorem detailStep_lineageOK (e : VersionEntry) (fl : Flags) (d : OsDetail)
    (h : lineageOK d) : lineageOK (detailStep e fl d).2 := by
  obtain ⟨h1, h2, h3⟩ := h
  unfold detailStep oldestStage previousStage currentStage lineageOK
  split_ifs <;> simp_all

theorem bucketLoop_lineageOK (full : String) (e : VersionEntry) (fl : Flags)
    (bs : OsBuckets) (h : ∀ p ∈ bs, lineageOK p.2) :
    ∀ p ∈ (bucketLoop full e fl bs).2, lineageOK p.2 := by
  induction bs generalizing fl with
  | nil => intro p hp; simp [bucketLoop] at hp
  | cons hd tl ih =>
      intro p hp
      obtain ⟨k, d⟩ := hd
      by_cases hk : k = full <;> simp only [bucketLoop, hk, if_pos, if_neg,
        ite_true, ite_false, List.mem_cons] at hp
      · rcases hp with hp | hp
        · rw [hp]
          exact detailStep_lineageOK e fl d (h (k, d) (List.mem_cons_self _ _))
        · exact ih _ (fun q hq => h q (List.mem_cons_of_mem _ hq)) _ hp
      · rcases hp with hp | hp
        · rw [hp]
          exact h (k, d) (List.mem_cons_self _ _)
        · exact ih _ (fun q hq => h q (List.mem_cons_of_mem _ hq)) _ hp

theorem writeBuckets_lineageOK (vm : VersionMapAL) (plat : String)
    (bs : OsBuckets) (hvm : ∀ p ∈ vm, ∀ b ∈ p.2, lineageOK b.2)
    (hbs : ∀ b ∈ bs, lineageOK b.2) :
    ∀ p ∈ writeBuckets vm plat bs, ∀ b ∈ p.2, lineageOK b.2 := by
  intro p hp
  unfold writeBuckets at hp
  obtain ⟨q, hq, hqe⟩ := List.mem_map.mp hp
  by_cases h : q.1 = plat
  · rw [if_pos h] at hqe
    rw [← hqe]
    exact hbs
  · rw [if_neg h] at hqe
    rw [← hqe]
    exact hvm q hq

theorem alSet_lineageOK (bs : OsBuckets) (k : String) (v : OsDetail)
    (hbs : ∀ b ∈ bs, lineageOK b.2) (hv : lineageOK v) :
    ∀ b ∈ alSet bs k v, lineageOK b.2 := by
  intro b hb
  unfold alSet at hb
  split_ifs at hb
  · obtain ⟨q, hq, hqe⟩ := List.mem_map.mp hb
    by_cases h : q.1 = k
    · rw [if_pos h] at hqe
      rw [← hqe]
      exact hv
    · rw [if_neg h] at hqe
      rw [← hqe]
      exact hbs q hq
  · rcases List.mem_append.mp hb with h | h
    · exact hbs b h
    · simp only [List.mem_singleton] at h
      rw [h]
      exact hv

theorem platBuckets_lineageOK (vm : VersionMapAL) (plat : String)
    (hvm : ∀ p ∈ vm, ∀ b ∈ p.2, lineageOK b.2) :
    ∀ b ∈ platBuckets vm plat, lineageOK b.2 := by
  intro b hb
  unfold platBuckets at hb
  cases hf : vm.find? (fun p => p.1 = plat) with
  | none => rw [hf] at hb; simp at hb
  | some q =>
      rw [hf] at hb
      exact hvm q (List.mem_of_find?_eq_some hf) b hb

theorem createBucket_lineageOK (vm : VersionMapAL) (plat full : String)
    (e : VersionEntry) (vm₁ : VersionMapAL)
    (hvm : ∀ p ∈ vm, ∀ b ∈ p.2, lineageOK b.2)
    (h : createBucket vm plat full e = Except.ok vm₁) :
    ∀ p ∈ vm₁, ∀ b ∈ p.2, lineageOK b.2 := by
  unfold createBucket at h
  cases hf : vm.find? (fun p => p.1 = plat) with
  | none => rw [hf] at h; exact absurd h (by simp)
  | some q =>
      rw [hf] at h
      simp only [Except.ok.injEq] at h
      rw [← h]
      refine writeBuckets_lineageOK vm plat _ hvm ?_
      refine alSet_lineageOK _ _ _ (hvm q (List.mem_of_find?_eq_some hf)) ?_
      exact ⟨rfl, fun _ => rfl, by simp⟩

theorem stepRecord_lineageOK (vm : VersionMapAL) (v : SensorInstaller)
    (vm₁ : VersionMapAL) (hvm : ∀ p ∈ vm, ∀ b ∈ p.2, lineageOK b.2)
    (h : stepRecord vm v = Except.ok vm₁) :
    ∀ p ∈ vm₁, ∀ b ∈ p.2, lineageOK b.2 := by
  unfold stepRecord at h
  split_ifs at h with hg hu
  · have hwb := writeBuckets_lineageOK vm (pyFmt v.platform)
      (bucketLoop (fullOsName v) (mkEntry v) ⟨false, false, false, false⟩
        (platBuckets vm (pyFmt v.platform))).2 hvm
      (bucketLoop_lineageOK _ _ _ _ (platBuckets_lineageOK vm _ hvm))
    exact createBucket_lineageOK _ _ _ _ _ hwb h
  · simp only [Except.ok.injEq] at h
    rw [← h]
    exact writeBuckets_lineageOK vm _ _ hvm
      (bucketLoop_lineageOK _ _ _ _ (platBuckets_lineageOK vm _ hvm))
  · simp only [Except.ok.injEq] at h
    rw [← h]
    exact hvm

theorem get_version_map_aux_lineageOK (rs : List SensorInstaller)
    (vm vm₁ : VersionMapAL) (hvm : ∀ p ∈ vm, ∀ b ∈ p.2, lineageOK b.2)
    (h : get_version_map_aux rs vm = Except.ok vm₁) :
    ∀ p ∈ vm₁, ∀ b ∈ p.2, lineageOK b.2 := by
  induction rs generalizing vm with
  | nil =>
      simp only [get_version_map_aux, Except.ok.injEq] at h
      rw [← h]
      exact hvm
  | cons r rest ih =>
      simp only [get_version_map_aux] at h
      cases hs : stepRecord vm r with
      | ok vm₂ =>
          rw [hs] at h
          exact ih vm₂ (stepRecord_lineageOK vm r vm₂ hvm hs) h
      | error e => rw [hs] at h; exact absurd h (by simp)

/-! # Claims -/

/-- C1: the claim says that for every raw input with more than 5000
non-empty trimmed lines the entry point returns exactly one advisory
BatchTooLarge row and makes no remote call.  The code instead crashes: the
guard `iname_list and hname_list == False` is false when `file_parse`
returns `(False, False)` (the falsy `iname_list` short-circuits the
conjunction), so the handler falls into the pipeline branch and
`executor.map` raises `TypeError` iterating over the bool `False`.  This
theorem evaluates the entry point on a 5001-line input: the result is the
`TypeError`, not the advisory row. -/
theorem upload_file_batch_too_large_crashes :
    upload_file (fun _ => ⟨200, []⟩) (fun _ => ⟨200, []⟩) (fun _ => [])
      (bigInput 5001) = Except.error PyErr.typeError ∧
    5000 < (parse_lines (bigInput 5001)).length := by
  constructor
  · unfold upload_file
    rw [file_parse_bigInput_tooMany]
    rfl
  · rw [parse_lines_bigInput, List.length_replicate]
    norm_num

/-- C2 counterexample: two distinct hostname tokens whose searches both
succeed with the same identity `aidX`.  The aggregated list handed to
enrichment contains `aidX` twice (the code only flattens, it never
deduplicates), and a detail oracle answering one record per submitted id
yields two identical DeviceRecord rows, refuting "receives that identity
exactly once" and "exactly one DeviceRecord". -/
theorem duplicate_identity_not_deduplicated_cex :
    (['w', '1'] : List Char) ≠ ['w', '2'] ∧
    (cs_query_devices (fun _ => ⟨200, []⟩) (fun _ => ⟨200, ["aidX"]⟩) []
        [['w', '1'], ['w', '2']]).1 = ["aidX", "aidX"] ∧
    List.count "aidX" (cs_query_devices (fun _ => ⟨200, []⟩)
        (fun _ => ⟨200, ["aidX"]⟩) [] [['w', '1'], ['w', '2']]).1 = 2 ∧
    (cs_detail_search
        (fun ids => ids.map (fun a =>
          { hostname := "web01", device_id := a, agent_version := "7.0",
            last_seen := "L", first_seen := "F", instance_id := none,
            tags := none, cid := "c" }))
        ["aidX", "aidX"] []).toOption.map List.length = some 2 :=
  ⟨by decide, rfl, rfl, rfl⟩

/-- C2 amended: when two distinct tokens both resolve successfully to a
shared DeviceIdentity, the aggregate passed on to enrichment is the plain
concatenation of their match lists, so the shared identity occurs at least
twice in it — identities are not deduplicated between resolution and
enrichment. -/
theorem aggregate_keeps_duplicate_identities
    (qi qh : List Char → SearchResponse) (t₁ t₂ : List Char) (d : String)
    (_hne : t₁ ≠ t₂)
    (h₁ : (qh t₁).status_code = 200) (h₂ : (qh t₂).status_code = 200)
    (hm₁ : d ∈ (qh t₁).resources) (hm₂ : d ∈ (qh t₂).resources) :
    (cs_query_devices qi qh [] [t₁, t₂]).1 =
      (qh t₁).resources ++ (qh t₂).resources ∧
    2 ≤ List.count d (cs_query_devices qi qh [] [t₁, t₂]).1 := by
  have e₁ : (qh t₁).resources.isEmpty = false := by
    simp [List.isEmpty_iff]
    exact List.ne_nil_of_mem hm₁
  have e₂ : (qh t₂).resources.isEmpty = false := by
    simp [List.isEmpty_iff]
    exact List.ne_nil_of_mem hm₂
  have heq : (cs_query_devices qi qh [] [t₁, t₂]).1 =
      (qh t₁).resources ++ (qh t₂).resources := by
    simp [cs_query_devices, query_outcomes, hname_outcome, h₁, h₂, e₁, e₂]
  refine ⟨heq, ?_⟩
  rw [heq, List.count_append]
  have c₁ := List.count_pos_iff.mpr hm₁
  have c₂ := List.count_pos_iff.mpr hm₂
  omega

/-- C2 amended, witness: the concrete two-token scenario of the
counterexample satisfies the hypotheses, and the theorem yields the
duplicated count. -/
theorem aggregate_keeps_duplicate_identities_witness :
    ((['w', '1'] : List Char) ≠ ['w', '2'] ∧
      ("aidX" : String) ∈ ["aidX"]) ∧
    2 ≤ List.count "aidX" (cs_query_devices (fun _ => ⟨200, []⟩)
        (fun _ => ⟨200, ["aidX"]⟩) [] [['w', '1'], ['w', '2']]).1 :=
  ⟨⟨by decide, by simp⟩,
    (aggregate_keeps_duplicate_identities (fun _ => ⟨200, []⟩)
      (fun _ => ⟨200, ["aidX"]⟩) ['w', '1'] ['w', '2'] "aidX" (by decide)
      rfl rfl (by simp) (by simp)).2⟩

/-- C3: the claim says that on an empty aggregated identity list the
enricher appends one diagnostic row and returns without raising.  The code
misspells the list method as `apppend`, so this branch raises
`AttributeError` instead, for every detail oracle and every
already-collected row list. -/
theorem empty_aggregate_apppend_raises (gd : List String → List DeviceDetail)
    (rows : List String) :
    cs_detail_search gd [] rows = Except.error PyErr.attributeError := rfl




/-- C4 counterexample: the trimmed line `i-` survives cleaning, starts with
the two characters `i-`, yet `file_parse` places it in the hostname bucket,
because the regex `^i-\b.*$` additionally demands a word character after
the hyphen.  The claimed "instance-id bucket iff starts with i-" is
therefore false at this input. -/
theorem i_dash_alone_goes_to_hostname_bucket :
    file_parse ['i', '-'] = ParseResult.lists [] [['i', '-']] ∧
    stripDomain ['i', '-'] = ['i', '-'] :=
  ⟨by decide, by decide⟩

/-- C4 amended: for every non-refused input, each cleaned line is placed
(after domain stripping) in exactly one of the two buckets — the instance-id
bucket exactly when the remainder starts with `i-` followed by a word
character (letter, digit, or underscore), and the hostname bucket
otherwise; together the buckets are a permutation of all stripped
surviving lines. -/
theorem classification_partition_word_boundary (s : List Char)
    (il hl : List (List Char)) (hp : file_parse s = ParseResult.lists il hl) :
    (∀ t ∈ il, matches_iname t = true) ∧
    (∀ t ∈ hl, matches_iname t = false) ∧
    (il ++ hl).Perm ((parse_lines s).map stripDomain) ∧
    (∀ t : List Char, matches_iname t = true ↔
      ∃ c rest, t = 'i' :: '-' :: c :: rest ∧ isWordChar c = true) := by
  obtain ⟨hil, hhl⟩ := file_parse_lists_eq s il hl hp
  subst hil
  subst hhl
  refine ⟨?_, ?_, ?_, matches_iname_iff⟩
  · intro t ht
    exact List.of_mem_filter ht
  · intro t ht
    simpa using List.of_mem_filter ht
  · have hcong : ((parse_lines s).map stripDomain).filter
        (fun l => ¬ matches_iname l) =
        ((parse_lines s).map stripDomain).filter (fun l => !matches_iname l) := by
      apply List.filter_congr
      intro x _
      simp
    rw [hcong]
    exact List.filter_append_perm _ _

/-- C4 amended, witness: a hostname with a domain suffix and an instance id
with a region suffix are stripped and land one per bucket, and the two
buckets together are a permutation of the stripped lines. -/
theorem classification_partition_word_boundary_witness :
    file_parse ("host1.example.com\ni-0abc.region".toList) =
      ParseResult.lists [['i', '-', '0', 'a', 'b', 'c']]
        [['h', 'o', 's', 't', '1']] ∧
    (([['i', '-', '0', 'a', 'b', 'c']] ++ [['h', 'o', 's', 't', '1']]) :
        List (List Char)).Perm
      ((parse_lines ("host1.example.com\ni-0abc.region".toList)).map stripDomain) :=
  ⟨by decide,
    (classification_partition_word_boundary
      ("host1.example.com\ni-0abc.region".toList) _ _ (by decide)).2.2.1⟩

/-- C5: the claim says the submission entry point returns the pipeline's
ordered row sequence (or the single refusal row).  The handler has no
`return` statement on any path, so its Python return value is always
`None` (or an exception propagates); it never returns a row list. -/
theorem upload_file_never_returns_rows (qi qh : List Char → SearchResponse)
    (gd : List String → List DeviceDetail) (s : List Char)
    (rows : List String) :
    upload_file qi qh gd s ≠ Except.ok (some rows) := by
  unfold upload_file
  cases hp : file_parse s with
  | tooMany => simp [upload_guard]
  | lists il hl =>
      simp only [upload_guard, Bool.and_false, Bool.false_eq_true, if_false,
        ite_false]
      cases hd : cs_detail_search gd (cs_query_devices qi qh il hl).1
          (cs_query_devices qi qh il hl).2 <;> simp [hd]

/-- C6: for an aggregated identity list of size 1 to 5000 the enricher
performs the single batched fetch and appends one row per returned detail
after the rows already collected; for size 5001 and larger it suppresses
enrichment and appends exactly one advisory row carrying the match count,
preserving all previously collected rows. -/
theorem detail_search_size_branches (gd : List String → List DeviceDetail)
    (aid_list rows : List String) :
    (1 ≤ aid_list.length → aid_list.length ≤ 5000 →
      cs_detail_search gd aid_list rows =
        Except.ok (rows ++ (gd aid_list).map detailRow)) ∧
    (5000 < aid_list.length →
      cs_detail_search gd aid_list rows =
        Except.ok (rows ++ [tooManyMatchesRow aid_list.length])) := by
  unfold cs_detail_search
  constructor
  · intro h1 h2
    rw [if_neg (by omega), if_pos h2]
  · intro h
    rw [if_neg (by omega), if_neg (by omega)]

/-- C6 witness: the boundary sizes 5000 (enriched normally) and 5001
(advisory row) under a detail oracle returning no records. -/
theorem detail_search_size_branches_witness :
    (1 ≤ (List.replicate 5000 "a").length ∧
      (List.replicate 5000 "a").length ≤ 5000 ∧
      cs_detail_search (fun _ => []) (List.replicate 5000 "a") ["r"] =
        Except.ok (["r"] ++ ([] : List DeviceDetail).map detailRow)) ∧
    (5000 < (List.replicate 5001 "a").length ∧
      cs_detail_search (fun _ => []) (List.replicate 5001 "a") ["r"] =
        Except.ok (["r"] ++ [tooManyMatchesRow (List.replicate 5001 "a").length])) :=
  ⟨⟨by rw [List.length_replicate]; norm_num, by rw [List.length_replicate],
      (detail_search_size_branches (fun _ => []) (List.replicate 5000 "a")
        ["r"]).1 (by rw [List.length_replicate]; norm_num)
        (by rw [List.length_replicate])⟩,
    ⟨by rw [List.length_replicate]; norm_num,
      (detail_search_size_branches (fun _ => []) (List.replicate 5001 "a")
        ["r"]).2 (by rw [List.length_replicate]; norm_num)⟩⟩

/-- C7: a token whose search answers with a non-200 status contributes
exactly one error row with retry guidance (and no identities); tokens other
than the failed one have outcomes depending only on their own responses, so
the failure changes nothing else; and the full row list is exactly the
concatenation of the per-token contributions. -/
theorem transient_error_isolated
    (qi qh qh' : List Char → SearchResponse) (inames hnames : List (List Char))
    (t : List Char) (hfail : (qh t).status_code ≠ 200)
    (hagree : ∀ u, u ≠ t → qh' u = qh u) :
    hname_outcome qh t = ([], [String.mk t ++
      ", Search experienced a transient error. Please try this name again in a smaller search list."]) ∧
    (∀ u, u ≠ t → hname_outcome qh' u = hname_outcome qh u) ∧
    (∀ s₂, (qi s₂).status_code ≠ 200 → iname_outcome qi s₂ =
      ([], [String.mk s₂ ++
        ", Search experienced an error. Please try this name again in a smaller search list."])) ∧
    (cs_query_devices qi qh inames hnames).2 =
      ((query_outcomes qi qh inames hnames).map Prod.snd).flatten := by
  refine ⟨?_, ?_, ?_, rfl⟩
  · unfold hname_outcome
    rw [if_neg hfail]
  · intro u hu
    unfold hname_outcome
    rw [hagree u hu]
  · intro s₂ hs
    unfold iname_outcome
    rw [if_neg hs]

/-- C7 witness: one hostname token answered with status 500 produces its
single transient-error row. -/
theorem transient_error_isolated_witness :
    ((fun _ => (⟨500, []⟩ : SearchResponse)) (['x'] : List Char)).status_code ≠ 200 ∧
    hname_outcome (fun _ => ⟨500, []⟩) ['x'] = ([],
      ["x, Search experienced a transient error. Please try this name again in a smaller search list."]) :=
  ⟨by decide,
    (transient_error_isolated (fun _ => ⟨500, []⟩) (fun _ => ⟨500, []⟩)
      (fun _ => ⟨500, []⟩) [] [['x']] ['x'] (by decide) (fun _ _ => rfl)).1⟩

/-- C8: the claim says aggregation starts only after every lookup task has
finished (a join after fan-out).  In the code the flatten comprehension and
the `return` are indented inside the `with ThreadPoolExecutor(...)` block,
so they run before the implicit join; a task finishing after the flatten
appends its raw match sublist to the already-flattened (and returned)
list.  With one hostname task matching `aid1`, the schedule in which the
task finishes after the flatten (`cut = 0`) returns the nested sublist,
while the claimed joined behaviour (`cut = 1`) returns the flat id — two
different results for the same input. -/
theorem flatten_before_join_race :
    (cs_query_devices_sched (fun _ => ⟨200, []⟩) (fun _ => ⟨200, ["aid1"]⟩)
        [] [['w']] 0).1 = [PyVal.lst ["aid1"]] ∧
    (cs_query_devices_sched (fun _ => ⟨200, []⟩) (fun _ => ⟨200, ["aid1"]⟩)
        [] [['w']] 1).1 = [PyVal.str "aid1"] ∧
    ([PyVal.lst ["aid1"]] : List PyVal) ≠ [PyVal.str "aid1"] :=
  ⟨rfl, rfl, by decide⟩

/-- C9: a surviving line whose first character is `.` is stripped to the
empty token by domain-suffix removal, the empty token does not match the
instance-id pattern and therefore lands in the hostname bucket, and every
hostname-bucket token — the empty one included — is searched remotely by
the resolver. -/
theorem dot_leading_line_empty_token (s : List Char) (il hl : List (List Char))
    (l : List Char) (hp : file_parse s = ParseResult.lists il hl)
    (hmem : l ∈ parse_lines s) (hdot : l.head? = some '.') :
    stripDomain l = [] ∧ ([] : List Char) ∈ hl ∧
    (∀ qh : List Char → SearchResponse,
      hname_outcome qh [] ∈ hl.map (hname_outcome qh)) := by
  obtain ⟨c, rest, rfl⟩ : ∃ c rest, l = c :: rest := by
    cases l with
    | nil => simp at hdot
    | cons c rest => exact ⟨c, rest, rfl⟩
  have hc : c = '.' := by simpa using hdot
  subst hc
  have hstrip : stripDomain ('.' :: rest) = [] := by
    simp [stripDomain]
  obtain ⟨hil, hhl⟩ := file_parse_lists_eq s il hl hp
  subst hhl
  have hmemmap : ([] : List Char) ∈ (parse_lines s).map stripDomain := by
    rw [← hstrip]
    exact List.mem_map_of_mem _ hmem
  have hmemf : ([] : List Char) ∈ ((parse_lines s).map stripDomain).filter
      (fun l => ¬ matches_iname l) := by
    apply List.mem_filter.mpr
    exact ⟨hmemmap, by simp [matches_iname]⟩
  exact ⟨hstrip, hmemf, fun qh => List.mem_map_of_mem _ hmemf⟩

/-- C9 witness: the input line `.corp.com` survives trimming, is stripped
to the empty token, and that empty token sits in the hostname bucket. -/
theorem dot_leading_line_empty_token_witness :
    file_parse (".corp.com\nweb".toList) =
      ParseResult.lists [] [[], ['w', 'e', 'b']] ∧
    stripDomain (".corp.com".toList) = [] ∧
    ([] : List Char) ∈ [([] : List Char), ['w', 'e', 'b']] :=
  ⟨by decide,
    (dot_leading_line_empty_token (".corp.com\nweb".toList) [] [[], ['w', 'e', 'b']]
      (".corp.com".toList) (by decide) (by decide) (by decide)).1,
    (dot_leading_line_empty_token (".corp.com\nweb".toList) [] [[], ['w', 'e', 'b']]
      (".corp.com".toList) (by decide) (by decide) (by decide)).2.1⟩

/-- C10: every platform/OS bucket present in a successfully built version
map has a populated `current` entry, a `previous` entry implies a populated
`current`, and an `oldest` entry implies a populated `previous` — the
current/previous/oldest lineage is filled strictly in that order. -/
theorem version_map_lineage_invariant (resources : List SensorInstaller)
    (vm : VersionMapAL) (h : get_version_map resources = Except.ok vm) :
    ∀ p ∈ vm, ∀ b ∈ p.2, lineageOK b.2 := by
  refine get_version_map_aux_lineageOK resources initVersionMap vm ?_ h
  intro p hp b hb
  simp only [initVersionMap, List.mem_cons, List.mem_singleton] at hp
  rcases hp with rfl | rfl | rfl | hp
  · simp at hb
  · simp at hb
  · simp at hb
  · simp at hp

/-- C10 witness: four same-bucket Ubuntu records build the full lineage,
and the bucket of the resulting map satisfies the invariant. -/
theorem version_map_lineage_invariant_witness :
    get_version_map [sampleInstaller "7.1", sampleInstaller "7.0",
      sampleInstaller "6.9", sampleInstaller "6.8"] =
      Except.ok sampleVersionMap ∧
    lineageOK sampleDetail :=
  ⟨by rfl,
    version_map_lineage_invariant
      [sampleInstaller "7.1", sampleInstaller "7.0", sampleInstaller "6.9",
        sampleInstaller "6.8"] sampleVersionMap (by rfl)
      ("linux", [("Ubuntu 16/18/20/22", sampleDetail)]) (by decide)
      ("Ubuntu 16/18/20/22", sampleDetail) (by decide)⟩
